import Mathlib

/-!
Shallow embedding of the Tibber Hourly Insights price-insight engine.

Python floats are modelled as exact rationals (`ℚ`); the arithmetic in the
source is plain field arithmetic on those values.  Timestamp handling is
abstracted to the quantity the code actually consumes: the local (Oslo)
hour-of-day of the timestamp, and (for the coordinator) the raw `startsAt`
string, which the source compares with Python string `>`.
-/

namespace TibberInsights

/-! ### price_adjustments.py -/

/-- Result record of `calculate_adjusted_price`
(`price_adjustments.py`, lines 104-110; the `timestamp` echo field is
not modelled). -/
structure AdjustmentResult where
  raw_spot_price : ℚ
  subsidy_amount : ℚ
  grid_fee : ℚ
  adjusted_price : ℚ
  deriving Repr, DecidableEq

/-- `calculate_adjusted_price` (`price_adjustments.py`, lines 25-110).
The timestamp-to-Oslo-civil-time conversion is abstracted to its result,
the local hour `oslo_hour`. -/
def calculate_adjusted_price (spot_price : ℚ) (oslo_hour : ℕ)
    (enable_subsidy : Bool) (subsidy_threshold subsidy_percentage : ℚ)
    (enable_grid_fee : Bool) (grid_fee_day grid_fee_night : ℚ)
    (day_start_hour day_end_hour : ℕ) : AdjustmentResult :=
  -- Step 1: strømstøtte subsidy.  The source initialises
  -- `subsidy_amount = 0.0; price_after_subsidy = spot_price` and overwrites
  -- both inside the branch; the if-expressions below are that same assignment.
  let subsidy_amount : ℚ :=
    if enable_subsidy ∧ subsidy_threshold < spot_price then
      (spot_price - subsidy_threshold) * (subsidy_percentage / 100)
    else 0
  let price_after_subsidy : ℚ :=
    if enable_subsidy ∧ subsidy_threshold < spot_price then
      spot_price - subsidy_amount
    else spot_price
  -- Step 2: time-based grid fee (`grid_fee = 0.0; final_price =
  -- price_after_subsidy` overwritten inside the branch).
  let grid_fee : ℚ :=
    if enable_grid_fee then
      if day_start_hour ≤ oslo_hour ∧ oslo_hour < day_end_hour then grid_fee_day
      else grid_fee_night
    else 0
  let final_price : ℚ :=
    if enable_grid_fee then price_after_subsidy + grid_fee
    else price_after_subsidy
  { raw_spot_price := spot_price
    subsidy_amount := subsidy_amount
    grid_fee := grid_fee
    adjusted_price := final_price }

/-- C1: for every spot price, Oslo-local hour, and configuration with subsidy
percentage in [0,100], `calculate_adjusted_price` returns a record with
`subsidy_amount = (spot - threshold) * percentage/100` when subsidy is enabled
and `spot > threshold` (else 0), `grid_fee = day_rate` when grid fee is enabled
and `day_start_hour ≤ hour < day_end_hour`, `night_rate` when enabled and the
hour is outside that half-open window (always `night_rate` when
`day_start_hour = day_end_hour`), else 0, and
`adjusted_price = raw_spot_price - subsidy_amount + grid_fee` with
`raw_spot_price` equal to the input spot price. -/
theorem calculate_adjusted_price_spec (spot : ℚ) (hour : ℕ) (es : Bool)
    (thr pct : ℚ) (eg : Bool) (day night : ℚ) (ds de : ℕ)
    (hpct : 0 ≤ pct ∧ pct ≤ 100) :
    (calculate_adjusted_price spot hour es thr pct eg day night
        ds de).raw_spot_price = spot ∧
    (calculate_adjusted_price spot hour es thr pct eg day night
        ds de).subsidy_amount
      = (if es ∧ thr < spot then (spot - thr) * (pct / 100) else 0) ∧
    (calculate_adjusted_price spot hour es thr pct eg day night ds de).grid_fee
      = (if eg then (if ds ≤ hour ∧ hour < de then day else night) else 0) ∧
    (calculate_adjusted_price spot hour es thr pct eg day night
        ds de).adjusted_price
      = (calculate_adjusted_price spot hour es thr pct eg day night
          ds de).raw_spot_price
        - (calculate_adjusted_price spot hour es thr pct eg day night
            ds de).subsidy_amount
        + (calculate_adjusted_price spot hour es thr pct eg day night
            ds de).grid_fee ∧
    (ds = de →
      (calculate_adjusted_price spot hour es thr pct eg day night
          ds de).grid_fee = (if eg then night else 0)) := by
  dsimp only [calculate_adjusted_price]
  refine ⟨rfl, rfl, rfl, ?_, ?_⟩
  · split_ifs with h1 h2 h3 <;> ring
  · intro hde
    subst hde
    split_ifs with h1 h2 h3 <;> first | rfl | omega

/-- Witness for C1 at the spec's worked scenario: spot 1.50, hour 10, subsidy
enabled with threshold 0.9375 and percentage 90, grid fee enabled with day
rate 0.444 over [6, 22). -/
theorem calculate_adjusted_price_spec_witness :
    (calculate_adjusted_price (3/2) 10 true (15/16) 90 true (111/250) (61/200)
        6 22).adjusted_price
      = (3/2) - ((3/2 - 15/16) * (90/100)) + 111/250 := by
  have h := calculate_adjusted_price_spec (3/2) 10 true (15/16) 90 true
    (111/250) (61/200) 6 22 ⟨by norm_num, by norm_num⟩
  obtain ⟨h1, h2, h3, h4, -⟩ := h
  rw [h4, h1, h2, h3]
  norm_num

/-! ### sensor.py — Tibber48HourComparisonSensor -/

/-- `Tibber48HourComparisonSensor._calculate_percentile`
(`sensor.py`, lines 350-360): `count_below = sum(1 for p in prices if
p < current_price)`, then `(count_below / len(prices)) * 100`, with a
default of 50.0 for an empty list. -/
def calculate_percentile (current_price : ℚ) (prices : List ℚ) : ℚ :=
  if prices = [] then 50
  else
    -- `count_below / len(prices) * 100`
    ((prices.countP (fun p => decide (p < current_price)) : ℚ)
        / (prices.length : ℚ)) * 100

/-- In a duplicate-free list bounded above by one of its members `M`,
the number of elements strictly below `M` is the length minus one. -/
lemma countP_lt_of_max (l : List ℚ) (M : ℚ) (hnd : l.Nodup) (hM : M ∈ l)
    (hub : ∀ x ∈ l, x ≤ M) :
    l.countP (fun p => decide (p < M)) = l.length - 1 := by
  induction l with
  | nil => cases hM
  | cons a t ih =>
    rcases List.mem_cons.mp hM with rfl | hMt
    · have hnotin : M ∉ t := (List.nodup_cons.mp hnd).1
      have hall : ∀ x ∈ t, x < M := by
        intro x hx
        exact lt_of_le_of_ne (hub x (List.mem_cons_of_mem _ hx))
          (fun h => hnotin (h ▸ hx))
      have : t.countP (fun p => decide (p < M)) = t.length := by
        rw [List.countP_eq_length]
        intro x hx
        exact decide_eq_true (hall x hx)
      simp [List.countP_cons, this]
    · have haM : a < M := by
        have hle : a ≤ M := hub a (List.mem_cons_self a t)
        have hne : a ≠ M := by
          rintro rfl
          exact (List.nodup_cons.mp hnd).1 hMt
        exact lt_of_le_of_ne hle hne
      have ht : t.countP (fun p => decide (p < M)) = t.length - 1 :=
        ih (List.nodup_cons.mp hnd).2 hMt
          (fun x hx => hub x (List.mem_cons_of_mem _ hx))
      have htlen : 1 ≤ t.length := List.length_pos_of_mem hMt
      simp only [List.countP_cons, decide_eq_true haM, if_pos, List.length_cons]
      rw [ht]
      omega

/-- C2: for every non-empty price list and reference value, the percentile
rank equals `100 * (count of elements strictly less than the reference) /
length` (ties are not counted as below); consequently, in a list of distinct
values the minimum has rank 0 and the maximum has rank
`100 * (N - 1) / N`. -/
theorem calculate_percentile_spec (ref : ℚ) (prices : List ℚ)
    (h : prices ≠ []) :
    calculate_percentile ref prices
      = 100 * ((prices.countP (fun p => decide (p < ref)) : ℚ))
          / (prices.length : ℚ) ∧
    (prices.Nodup → ∀ m ∈ prices, (∀ x ∈ prices, m ≤ x) →
      calculate_percentile m prices = 0) ∧
    (prices.Nodup → ∀ M ∈ prices, (∀ x ∈ prices, x ≤ M) →
      calculate_percentile M prices
        = 100 * ((prices.length : ℚ) - 1) / (prices.length : ℚ)) := by
  refine ⟨?_, ?_, ?_⟩
  · rw [calculate_percentile, if_neg h]
    ring
  · intro _ m _ hlb
    rw [calculate_percentile, if_neg h]
    have hzero : prices.countP (fun p => decide (p < m)) = 0 := by
      rw [List.countP_eq_zero]
      intro x hx
      simpa using not_lt.mpr (hlb x hx)
    rw [hzero]
    norm_num
  · intro hnd M hM hub
    rw [calculate_percentile, if_neg h]
    rw [countP_lt_of_max prices M hnd hM hub]
    have hlen : 1 ≤ prices.length := List.length_pos_of_mem hM
    have hcast : ((prices.length - 1 : ℕ) : ℚ) = (prices.length : ℚ) - 1 := by
      push_cast [hlen]
      ring
    rw [hcast]
    ring

/-- Witness for C2 at the spec's worked scenario:
prices `[1.0, 1.2, 0.8, 1.5, 0.9]`, reference `1.2`, where three values are
strictly below, giving rank 60; and the minimum `0.8` has rank 0. -/
theorem calculate_percentile_spec_witness :
    calculate_percentile (6/5) [1, 6/5, 4/5, 3/2, 9/10] = (60 : ℚ) ∧
    calculate_percentile (4/5) [1, 6/5, 4/5, 3/2, 9/10] = 0 := by
  constructor
  · have h := (calculate_percentile_spec (6/5) [1, 6/5, 4/5, 3/2, 9/10]
      (by decide)).1
    rw [h]
    norm_num
  · exact (calculate_percentile_spec (4/5) [1, 6/5, 4/5, 3/2, 9/10]
      (by decide)).2.1 (by norm_num) (4/5) (by norm_num) (by norm_num)

/-- One entry of the `today` / `tomorrow` / `yesterday` price arrays:
`entry.get("total")` (absent or `None` modelled as `none`) and
`entry.get("startsAt", "")` (a raw ISO string, compared by the coordinator
with Python string `>`). -/
structure PriceEntry where
  total : Option ℚ
  startsAt : String
  deriving Repr, DecidableEq

/-- `Tibber48HourComparisonSensor._get_48h_prices` (`sensor.py`, lines
319-348; the identical copy in `TibberWeightedConsensusSensor._get_48h_prices`,
lines 707-728): priority chain today+tomorrow, else yesterday+today, else
today alone, keeping each entry's `total` when it is not `None`. -/
def get_48h_prices (today tomorrow yesterday : List PriceEntry) : List ℚ :=
  if tomorrow ≠ [] then
    (today ++ tomorrow).filterMap (fun e => e.total)
  else if yesterday ≠ [] then
    (yesterday ++ today).filterMap (fun e => e.total)
  else
    today.filterMap (fun e => e.total)

/-- `data_source = "today+tomorrow" if tomorrow else "yesterday+today"`
(`Tibber48HourComparisonSensor.extra_state_attributes`, `sensor.py`,
lines 290-291). -/
def data_source_48h (tomorrow : List PriceEntry) : String :=
  if tomorrow ≠ [] then "today+tomorrow" else "yesterday+today"

/-- C3 counterexample: with a non-empty `today` but empty `tomorrow` and
`yesterday`, the window actually used is today alone, yet the recorded
provenance tag is `"yesterday+today"`, never `"today-only"`, refuting the
claim that the tag reports the choice actually used out of three values. -/
theorem c3_counterexample :
    get_48h_prices [⟨some 1, "2024-01-01T00:00:00+01:00"⟩] [] [] = [1] ∧
    data_source_48h [] = "yesterday+today" ∧
    data_source_48h [] ≠ "today-only" := by
  decide

/-- C3 amended: the window is a strict priority chain — today+tomorrow when
tomorrow is non-empty, else yesterday+today when yesterday is non-empty, else
today alone, never a union of all three — but the provenance tag takes only
the two values `"today+tomorrow"` (exactly when tomorrow is non-empty) and
`"yesterday+today"` (otherwise); the today-only fallback is also tagged
`"yesterday+today"`, and `"today-only"` is never recorded. -/
theorem get_48h_prices_amended (today tomorrow yesterday : List PriceEntry) :
    (tomorrow ≠ [] →
      get_48h_prices today tomorrow yesterday
        = (today ++ tomorrow).filterMap (fun e => e.total)) ∧
    (tomorrow = [] → yesterday ≠ [] →
      get_48h_prices today tomorrow yesterday
        = (yesterday ++ today).filterMap (fun e => e.total)) ∧
    (tomorrow = [] → yesterday = [] →
      get_48h_prices today tomorrow yesterday
        = today.filterMap (fun e => e.total)) ∧
    (data_source_48h tomorrow = "today+tomorrow" ↔ tomorrow ≠ []) ∧
    data_source_48h tomorrow ≠ "today-only" := by
  refine ⟨?_, ?_, ?_, ?_, ?_⟩
  · intro ht
    rw [get_48h_prices, if_pos ht]
  · intro ht hy
    rw [get_48h_prices, if_neg (by simp [ht]), if_pos hy]
  · intro ht hy
    rw [get_48h_prices, if_neg (by simp [ht]), if_neg (by simp [hy])]
  · unfold data_source_48h
    split_ifs with htom
    · simp [htom]
    · simp [htom]
  · unfold data_source_48h
    split_ifs <;> decide

/-- Witness for C3 (amended): concrete instantiations of each branch of the
priority chain and of the tag dichotomy. -/
theorem get_48h_prices_amended_witness :
    get_48h_prices [⟨some 1, "a"⟩] [⟨some 2, "b"⟩] [⟨some 3, "c"⟩]
      = [1, 2] ∧
    get_48h_prices [⟨some 1, "a"⟩] [] [⟨some 3, "c"⟩] = [3, 1] ∧
    data_source_48h ([] : List PriceEntry) = "yesterday+today" := by
  refine ⟨?_, ?_, ?_⟩
  · rw [(get_48h_prices_amended [⟨some 1, "a"⟩] [⟨some 2, "b"⟩]
      [⟨some 3, "c"⟩]).1 (by decide)]
    decide
  · rw [(get_48h_prices_amended [⟨some 1, "a"⟩] [] [⟨some 3, "c"⟩]).2.1
      (by decide) (by decide)]
    decide
  · decide

/-! ### history.py — TibberHistoryHelper -/

/-- One recorder state row as consumed by `get_same_hour_average`
(`history.py`, lines 167-180): `hour` is the local hour of `last_updated`,
and `state` is the parsed numeric state — `none` collapses the source's
sentinel states (`"unavailable"`, `"unknown"`, `None`) and states that fail
`float(...)` parsing, all of which the source skips. -/
structure RecorderState where
  hour : ℕ
  state : Option ℚ
  deriving Repr, DecidableEq

/-- The recorder-price filter of `get_same_hour_average` (`history.py`,
lines 164-180): keep the numeric states whose hour equals the current hour. -/
def recorder_prices (states : List RecorderState) (current_hour : ℕ) :
    List ℚ :=
  states.filterMap (fun s => if s.hour = current_hour then s.state else none)

/-- One node of the Tibber consumption response (`history.py`, lines 66-93):
`fromHour` is the local hour of the parsed `from` timestamp (`none` when the
field is missing or unparsable, which the source skips), `unitPrice` is
`node.get("unitPrice")`, and `unitPriceVAT` is `node.get("unitPriceVAT", 0)`. -/
structure ConsumptionNode where
  fromHour : Option ℕ
  unitPrice : Option ℚ
  unitPriceVAT : ℚ
  deriving Repr, DecidableEq

/-- `TibberHistoryHelper.fetch_tibber_fallback` (`history.py`, lines 27-106).
The remote call is abstracted to its outcome `fetchResult`; any raised error
is caught and degraded to `[]` (lines 104-106), and an empty node list also
yields `[]` (lines 60-62).  Otherwise the nodes are filtered to the target
local hour and mapped to `unitPrice + unitPriceVAT`. -/
def fetch_tibber_fallback (fetchResult : Except Unit (List ConsumptionNode))
    (target_hour : ℕ) : List ℚ :=
  match fetchResult with
  | .error _ => []
  | .ok nodes =>
    nodes.filterMap (fun n =>
      match n.fromHour, n.unitPrice with
      | some h, some up =>
        if h = target_hour then some (up + n.unitPriceVAT) else none
      | _, _ => none)

/-- The `tibber_prices` local of `get_same_hour_average` (`history.py`,
lines 224-240): `[]` when no client is passed, else the outcome of the
remote fetch consumed by `fetch_tibber_fallback`. -/
def tibber_prices (tibber_client : Option (Except Unit (List ConsumptionNode)))
    (current_hour : ℕ) : List ℚ :=
  match tibber_client with
  | none => []
  | some fr => fetch_tibber_fallback fr current_hour

/-- The result dict of `get_same_hour_average` (`history.py` docstring,
lines 132-140): `recorder_count` / `tibber_count` are present only when
`source = "mixed"`. -/
structure BaselineResult where
  average : Option ℚ
  sample_count : ℕ
  min : Option ℚ
  max : Option ℚ
  source : String
  recorder_count : Option ℕ
  tibber_count : Option ℕ
  deriving Repr, DecidableEq

/-- `TibberHistoryHelper.get_same_hour_average` (`history.py`, lines
108-305).  The recorder query is abstracted to its outcome `historyResult`
(the outer `except` of lines 297-305 catches a raising query and returns the
`"error"` dict); `tibber_client` is `none` when no client is passed, and
otherwise carries the outcome of the remote fetch consumed by
`fetch_tibber_fallback`.  The `days` / `missing_days` / `max_fetch_hours`
arithmetic only shapes the remote request and is absorbed into that
outcome. -/
def get_same_hour_average (historyResult : Except Unit (List RecorderState))
    (current_hour : ℕ)
    (tibber_client : Option (Except Unit (List ConsumptionNode)))
    (enable_fallback : Bool) (min_samples : ℕ) : BaselineResult :=
  match historyResult with
  | .error _ =>
    { average := none, sample_count := 0, min := none, max := none,
      source := "error", recorder_count := none, tibber_count := none }
  | .ok states =>
    -- Step 1: recorder data, filtered to the current hour
    let rp := recorder_prices states current_hour
    -- Step 2: sufficient recorder data, or fallback disabled
    if min_samples ≤ rp.length ∨ enable_fallback = false then
      if rp = [] then
        { average := none, sample_count := 0, min := none, max := none,
          source := "recorder", recorder_count := none, tibber_count := none }
      else
        { average := some (rp.sum / (rp.length : ℚ)), sample_count := rp.length,
          min := rp.min?, max := rp.max?, source := "recorder",
          recorder_count := none, tibber_count := none }
    else
      -- Step 3: Tibber fallback, only when a client was provided
      let tp := tibber_prices tibber_client current_hour
      -- Step 4: merge and compute statistics
      let all := rp ++ tp
      if all = [] then
        { average := none, sample_count := 0, min := none, max := none,
          source := "none", recorder_count := none, tibber_count := none }
      else
        let source :=
          if rp ≠ [] ∧ tp ≠ [] then "mixed"
          else if tp ≠ [] then "tibber"
          else "recorder"
        { average := some (all.sum / (all.length : ℚ)),
          sample_count := all.length,
          min := all.min?, max := all.max?, source := source,
          recorder_count := if rp ≠ [] ∧ tp ≠ [] then some rp.length else none,
          tibber_count := if rp ≠ [] ∧ tp ≠ [] then some tp.length else none }

/-- When the recorder already has `min_samples` samples, `get_same_hour_average`
stops at Step 2 and never inspects the fallback collaborator. -/
lemma get_same_hour_average_primary (states : List RecorderState)
    (hour : ℕ) (tc : Option (Except Unit (List ConsumptionNode)))
    (ef : Bool) (ms : ℕ)
    (hms : ms ≤ (recorder_prices states hour).length) :
    get_same_hour_average (.ok states) hour tc ef ms
      = (if recorder_prices states hour = [] then
          { average := none, sample_count := 0, min := none, max := none,
            source := "recorder", recorder_count := none, tibber_count := none }
        else
          { average := some ((recorder_prices states hour).sum
              / ((recorder_prices states hour).length : ℚ)),
            sample_count := (recorder_prices states hour).length,
            min := (recorder_prices states hour).min?,
            max := (recorder_prices states hour).max?,
            source := "recorder",
            recorder_count := none, tibber_count := none }) := by
  dsimp only [get_same_hour_average]
  rw [if_pos (Or.inl hms)]

/-- C4: whenever the baseline result's source is `"mixed"`, its sample count
is the recorder sample count plus the Tibber fallback sample count (and the
recorded breakdown fields carry exactly those counts); and whenever the
recorder sample count reaches `min_samples`, the source is `"recorder"` and
the result is independent of the fallback collaborator (it is never
consulted). -/
theorem get_same_hour_average_spec (states : List RecorderState)
    (hour : ℕ) (tc : Option (Except Unit (List ConsumptionNode)))
    (ef : Bool) (ms : ℕ) :
    ((get_same_hour_average (.ok states) hour tc ef ms).source = "mixed" →
      (get_same_hour_average (.ok states) hour tc ef ms).sample_count
          = (recorder_prices states hour).length
              + (tibber_prices tc hour).length ∧
      (get_same_hour_average (.ok states) hour tc ef ms).recorder_count
          = some (recorder_prices states hour).length ∧
      (get_same_hour_average (.ok states) hour tc ef ms).tibber_count
          = some (tibber_prices tc hour).length) ∧
    (ms ≤ (recorder_prices states hour).length →
      (get_same_hour_average (.ok states) hour tc ef ms).source = "recorder" ∧
      ∀ tc', get_same_hour_average (.ok states) hour tc' ef ms
          = get_same_hour_average (.ok states) hour tc ef ms) := by
  constructor
  · -- the "mixed" source only arises in the merge branch with both non-empty
    intro hmix
    rw [get_same_hour_average] at hmix ⊢
    by_cases hstep : ms ≤ (recorder_prices states hour).length ∨ ef = false
    · rw [if_pos hstep] at hmix
      by_cases hrp : recorder_prices states hour = []
      · rw [if_pos hrp] at hmix
        dsimp only at hmix
        exact absurd hmix (by decide)
      · rw [if_neg hrp] at hmix
        dsimp only at hmix
        exact absurd hmix (by decide)
    · rw [if_neg hstep] at hmix ⊢
      by_cases hall :
          recorder_prices states hour ++ tibber_prices tc hour = []
      · rw [if_pos hall] at hmix
        dsimp only at hmix
        exact absurd hmix (by decide)
      · rw [if_neg hall] at hmix ⊢
        by_cases hboth : ¬recorder_prices states hour = []
            ∧ ¬tibber_prices tc hour = []
        · refine ⟨?_, ?_, ?_⟩ <;> simp [hboth, List.length_append]
        · exfalso
          have hsrc : (if tibber_prices tc hour ≠ [] then "tibber"
              else "recorder") = "mixed" := by
            have h := hmix
            simp only [if_neg hboth] at h
            exact h
          split_ifs at hsrc <;> exact absurd hsrc (by decide)
  · intro hms
    constructor
    · rw [get_same_hour_average_primary states hour tc ef ms hms]
      split_ifs <;> rfl
    · intro tc'
      rw [get_same_hour_average_primary states hour tc ef ms hms,
        get_same_hour_average_primary states hour tc' ef ms hms]

/-- Witness for C4: two recorder samples at hour 3 with `min_samples = 1`
yield source `"recorder"` regardless of the fallback collaborator. -/
theorem get_same_hour_average_spec_witness :
    (get_same_hour_average
        (.ok [⟨3, some 1⟩, ⟨3, some 2⟩]) 3
        (some (.ok [⟨some 3, some 5, 1⟩])) true 1).source = "recorder" ∧
    get_same_hour_average (.ok [⟨3, some 1⟩, ⟨3, some 2⟩]) 3
        (some (.ok [⟨some 3, some 5, 1⟩])) true 1
      = get_same_hour_average (.ok [⟨3, some 1⟩, ⟨3, some 2⟩]) 3
          (some (.error ())) true 1 := by
  have h := (get_same_hour_average_spec [⟨3, some 1⟩, ⟨3, some 2⟩] 3
    (some (.error ())) true 1).2 (by decide)
  exact ⟨h.2 (some (.ok [⟨some 3, some 5, 1⟩])) ▸ h.1,
    h.2 (some (.ok [⟨some 3, some 5, 1⟩]))⟩

/-- C8 counterexample: the recorder query succeeds with one sample (below
`min_samples = 20`) and the remote fallback fetch fails; the failing fetch is
degraded to an empty sample list inside `fetch_tibber_fallback`, so the
result has source `"recorder"` with one sample and a present average — not
source `"error"` with absent statistics and count 0 as the claim states. -/
theorem c8_counterexample :
    (get_same_hour_average (.ok [⟨3, some 1⟩]) 3
        (some (.error ())) true 20).source = "recorder" ∧
    (get_same_hour_average (.ok [⟨3, some 1⟩]) 3
        (some (.error ())) true 20).sample_count = 1 ∧
    (get_same_hour_average (.ok [⟨3, some 1⟩]) 3
        (some (.error ())) true 20).average = some 1 ∧
    "recorder" ≠ "error" := by
  have hrp : recorder_prices [⟨3, some 1⟩] 3 = [1] := by decide
  have hres : get_same_hour_average (.ok [⟨3, some 1⟩]) 3
      (some (.error ())) true 20
      = { average := some 1, sample_count := 1, min := some 1, max := some 1,
          source := "recorder", recorder_count := none,
          tibber_count := none } := by
    rw [get_same_hour_average]
    rw [if_neg (by rw [hrp]; decide)]
    rw [if_neg (by simp [hrp, tibber_prices, fetch_tibber_fallback])]
    simp [hrp, tibber_prices, fetch_tibber_fallback]
  rw [hres]
  refine ⟨rfl, rfl, rfl, by decide⟩

/-- C8 amended: when the local history query itself raises, the result has
source `"error"` with absent average/min/max and sample count 0; when only
the remote fallback fetch raises, the fetch degrades to an empty sample list
and the result is identical to a fallback that returned no data (so its
source is `"recorder"` or `"none"`, never `"error"`).  In the pure model both
paths return normally, so no exception propagates to the caller. -/
theorem get_same_hour_average_error_amended (hour : ℕ)
    (tc : Option (Except Unit (List ConsumptionNode))) (ef : Bool) (ms : ℕ)
    (u u' : Unit) (states : List RecorderState) :
    get_same_hour_average (.error u) hour tc ef ms
      = { average := none, sample_count := 0, min := none, max := none,
          source := "error", recorder_count := none, tibber_count := none } ∧
    fetch_tibber_fallback (.error u') hour = [] ∧
    get_same_hour_average (.ok states) hour (some (.error u')) ef ms
      = get_same_hour_average (.ok states) hour (some (.ok [])) ef ms := by
  refine ⟨rfl, rfl, ?_⟩
  rfl

/-! ### sensor.py — TibberWeightedConsensusSensor -/

/-- The five provider price levels (`const.py` / `sensor.py` enum_map keys).
The source reads the level as a string; an absent level is modelled as
`none` on `Option PriceLevel`. -/
inductive PriceLevel where
  | very_cheap | cheap | normal | expensive | very_expensive
  deriving Repr, DecidableEq

/-- The three consensus signals (`weights` / `metrics` dict keys
`"tibber"`, `"48h"`, `"30d"`). -/
inductive Signal where
  | tibber | h48 | d30
  deriving Repr, DecidableEq

/-- `TibberWeightedConsensusSensor._calculate_pct_vs_average` (`sensor.py`,
lines 730-740; identical to `Tibber48HourComparisonSensor`'s copy, lines
371-385): returns 0.0 for an empty window, returns 0.0 when the average is
exactly 0, else `((current - avg) / avg) * 100`. -/
def calculate_pct_vs_average (current_price : ℚ) (prices : List ℚ) : ℚ :=
  if prices = [] then 0
  -- `avg_price = sum(prices) / len(prices)`, written out at each use
  else if prices.sum / (prices.length : ℚ) = 0 then 0
  else ((current_price - prices.sum / (prices.length : ℚ))
      / (prices.sum / (prices.length : ℚ))) * 100

/-- Python truthiness of the current price as used in
`if current_price and prices_48h:` (`sensor.py`, lines 602 and 667):
`None` and `0.0` are both falsy. -/
def price_truthy (current_price : Option ℚ) : Bool :=
  match current_price with
  | none => false
  | some p => decide (p ≠ 0)

/-- Metric collection of `TibberWeightedConsensusSensor.native_value`
(`sensor.py`, lines 591-610) and the identical collection in
`extra_state_attributes` (lines 654-674), as an association list in the
source's insertion order tibber, 48h, 30d.  `enum_map` is the injected
level-to-percentage configuration, `pct_30d` the 30-day baseline deviation
read from the baseline sensor (`none` when unavailable). -/
def consensus_metrics (level : Option PriceLevel) (enum_map : PriceLevel → ℚ)
    (current_price : Option ℚ) (prices_48h : List ℚ)
    (enable_30d : Bool) (pct_30d : Option ℚ) : List (Signal × ℚ) :=
  (match level with
   | some lv => [(Signal.tibber, enum_map lv)]
   | none => []) ++
  (if price_truthy current_price ∧ prices_48h ≠ [] then
    [(Signal.h48, calculate_pct_vs_average (current_price.getD 0) prices_48h)]
  else []) ++
  (if enable_30d then
    match pct_30d with
    | some q => [(Signal.d30, q)]
    | none => []
  else [])

/-- Python `round(x, 3)` on an exact rational value: round half to even at
the third decimal. -/
def round3 (x : ℚ) : ℚ :=
  let y := x * 1000
  let f : ℤ := ⌊y⌋
  let r := y - (f : ℚ)
  if r < 1/2 then (f : ℚ) / 1000
  else if 1/2 < r then ((f : ℚ) + 1) / 1000
  else if f % 2 = 0 then (f : ℚ) / 1000
  else ((f : ℚ) + 1) / 1000

/-- `TibberWeightedConsensusSensor.native_value` (`sensor.py`, lines
564-631), with the coordinator state and options resolved into explicit
arguments: collect the available metrics; return `None` when there are none;
return 0.0 when the active weights sum to 0; otherwise renormalize the
weights over the present signals, average the deviations, divide by 100 and
round to 3 decimals. -/
def consensus_native_value (level : Option PriceLevel)
    (enum_map : PriceLevel → ℚ) (current_price : Option ℚ)
    (prices_48h : List ℚ) (enable_30d : Bool) (pct_30d : Option ℚ)
    (weight : Signal → ℚ) : Option ℚ :=
  let metrics :=
    consensus_metrics level enum_map current_price prices_48h enable_30d pct_30d
  if metrics = [] then none
  else
    let total_weight := (metrics.map (fun m => weight m.1)).sum
    if total_weight = 0 then some 0
    else
      let weighted_pct :=
        (metrics.map (fun m => m.2 * (weight m.1 / total_weight))).sum
      some (round3 (weighted_pct / 100))

/-- `score = self.native_value or 0.0` in `extra_state_attributes`
(`sensor.py`, line 682): Python `or` substitutes 0.0 for a falsy score
(`None`, or an exact 0.0). -/
def score_for_attributes (native_value : Option ℚ) : ℚ :=
  match native_value with
  | none => 0
  | some s => if s = 0 then 0 else s

/-- The default level-to-percentage mapping (`const.py`, lines 42-46). -/
def default_enum_map : PriceLevel → ℚ
  | .very_cheap => -40
  | .cheap => -20
  | .normal => 0
  | .expensive => 20
  | .very_expensive => 40

/-- The default signal weights (`const.py`, lines 36-38). -/
def default_weights : Signal → ℚ
  | .tibber => 1/2
  | .h48 => 3/10
  | .d30 => 1/5

/-- C5 counterexample: when zero signals are available (no provider level, no
current price, empty 48h window, 30-day baseline disabled), the scorer
returns `None` (`if not metrics: return None`, `sensor.py` line 612-613) —
an absent value, not the numeric score 0.0 the claim states. -/
theorem c5_counterexample :
    consensus_native_value none default_enum_map none [] false none
        default_weights = none ∧
    (none : Option ℚ) ≠ some 0 := by
  exact ⟨rfl, by decide⟩

/-- C5 amended: when zero input signals are available the scorer's state
value is absent (`None`), not 0.0; the numeric substitution to 0.0 happens
in the attribute consumer (`score = self.native_value or 0.0`), which treats
the absent score as neutral. -/
theorem consensus_native_value_amended (level : Option PriceLevel)
    (em : PriceLevel → ℚ) (cp : Option ℚ) (prices : List ℚ) (e30 : Bool)
    (p30 : Option ℚ) (w : Signal → ℚ)
    (hempty : consensus_metrics level em cp prices e30 p30 = []) :
    consensus_native_value level em cp prices e30 p30 w = none ∧
    score_for_attributes
        (consensus_native_value level em cp prices e30 p30 w) = 0 := by
  have hnv : consensus_native_value level em cp prices e30 p30 w = none := by
    simp only [consensus_native_value, hempty]
    simp
  exact ⟨hnv, by rw [hnv]; rfl⟩

/-- Witness for C5 (amended), at the all-absent input. -/
theorem consensus_native_value_amended_witness :
    consensus_native_value none default_enum_map none [] false none
        default_weights = none ∧
    score_for_attributes (consensus_native_value none default_enum_map none
        [] false none default_weights) = 0 := by
  exact consensus_native_value_amended none default_enum_map none [] false
    none default_weights rfl

/-- Sum of renormalized values distributes over the division by the total. -/
lemma sum_map_div (l : List (Signal × ℚ)) (w : Signal → ℚ) (T : ℚ) :
    (l.map (fun m => w m.1 / T)).sum = (l.map (fun m => w m.1)).sum / T := by
  induction l with
  | nil => simp
  | cons a t ih => simp [ih, add_div]

/-- C6: over any non-empty present-signal set whose configured weights sum to
a strictly positive total, the renormalized weights `w_i / Σ w_j` of
`native_value` (`sensor.py`, lines 615-622) sum to exactly 1. -/
theorem consensus_weights_normalized (level : Option PriceLevel)
    (em : PriceLevel → ℚ) (cp : Option ℚ) (prices : List ℚ) (e30 : Bool)
    (p30 : Option ℚ) (w : Signal → ℚ)
    (hne : consensus_metrics level em cp prices e30 p30 ≠ [])
    (hpos : 0 < ((consensus_metrics level em cp prices e30 p30).map
        (fun m => w m.1)).sum) :
    ((consensus_metrics level em cp prices e30 p30).map
        (fun m => w m.1 / ((consensus_metrics level em cp prices e30 p30).map
            (fun m => w m.1)).sum)).sum = 1 := by
  rw [sum_map_div]
  exact div_self (ne_of_gt hpos)

/-- Witness for C6: a single present signal (provider level NORMAL) under the
default weights renormalizes to weight 1. -/
theorem consensus_weights_normalized_witness :
    ((consensus_metrics (some .normal) default_enum_map none [] false
        none).map (fun m => default_weights m.1
          / ((consensus_metrics (some .normal) default_enum_map none [] false
              none).map (fun m => default_weights m.1)).sum)).sum = 1 := by
  apply consensus_weights_normalized
  · decide
  · norm_num [consensus_metrics, price_truthy, default_weights,
      default_enum_map]

/-- C7 counterexample: for the window `[1, -1]` (average exactly 0) and
reference 5, `_calculate_pct_vs_average` returns 0.0 — it does not fail, and
the consensus caller includes the 48h signal with contribution 0 rather than
treating it as absent. -/
theorem c7_counterexample :
    calculate_pct_vs_average 5 [1, -1] = 0 ∧
    (Signal.h48, (0 : ℚ)) ∈ consensus_metrics none default_enum_map (some 5)
        [1, -1] false none := by
  have havg : calculate_pct_vs_average 5 [1, -1] = 0 := by
    rw [calculate_pct_vs_average]
    norm_num
  refine ⟨havg, ?_⟩
  simp [consensus_metrics, price_truthy, havg]

/-- C7 amended: the deviation-from-average computation returns exactly
`100 * (reference - average) / average` when the average is non-zero, and
returns 0.0 (a present, zero-valued signal — not an error and not an absent
signal) when the average is exactly 0, which also covers the empty window. -/
theorem calculate_pct_vs_average_amended (cp : ℚ) (prices : List ℚ) :
    (prices.sum / (prices.length : ℚ) ≠ 0 →
      calculate_pct_vs_average cp prices
        = 100 * (cp - prices.sum / (prices.length : ℚ))
            / (prices.sum / (prices.length : ℚ))) ∧
    (prices.sum / (prices.length : ℚ) = 0 →
      calculate_pct_vs_average cp prices = 0) := by
  constructor
  · intro hne
    have hnonempty : prices ≠ [] := by
      rintro rfl
      simp at hne
    rw [calculate_pct_vs_average, if_neg hnonempty, if_neg hne]
    ring
  · intro h0
    rw [calculate_pct_vs_average]
    by_cases hp : prices = []
    · rw [if_pos hp]
    · rw [if_neg hp, if_pos h0]

/-- Witness for C7 (amended): window `[1, 2]` with average 3/2 and
reference 3 deviates by exactly 100%. -/
theorem calculate_pct_vs_average_amended_witness :
    calculate_pct_vs_average 3 [1, 2] = 100 := by
  rw [(calculate_pct_vs_average_amended 3 [1, 2]).1 (by norm_num)]
  norm_num

/-- C10: when the current price is exactly 0.0 the `if current_price and
prices_48h:` inclusion test is false by Python truthiness, so the 48h signal
is excluded from the metric set even for a non-empty window, the metric set
equals the one computed from an empty window, and the consensus score is the
same as if the window were empty — the 48h weight is renormalized away. -/
theorem consensus_zero_price_excludes_h48 (level : Option PriceLevel)
    (em : PriceLevel → ℚ) (prices : List ℚ) (e30 : Bool) (p30 : Option ℚ)
    (w : Signal → ℚ) (hne : prices ≠ []) :
    Signal.h48 ∉ (consensus_metrics level em (some 0) prices e30 p30).map
        Prod.fst ∧
    consensus_metrics level em (some 0) prices e30 p30
      = consensus_metrics level em (some 0) [] e30 p30 ∧
    consensus_native_value level em (some 0) prices e30 p30 w
      = consensus_native_value level em (some 0) [] e30 p30 w := by
  have hmet : consensus_metrics level em (some 0) prices e30 p30
      = consensus_metrics level em (some 0) [] e30 p30 := by
    simp [consensus_metrics, price_truthy]
  refine ⟨?_, hmet, ?_⟩
  · rw [hmet]
    cases level <;> cases p30 <;> cases e30 <;>
      simp [consensus_metrics, price_truthy]
  · simp only [consensus_native_value, hmet]

/-- Witness for C10: a concrete zero-priced hour with a non-empty window. -/
theorem consensus_zero_price_excludes_h48_witness :
    Signal.h48 ∉ (consensus_metrics (some .normal) default_enum_map (some 0)
        [1] false none).map Prod.fst := by
  exact (consensus_zero_price_excludes_h48 (some .normal) default_enum_map
    [1] false none default_weights (by decide)).1

/-! ### coordinator.py — yesterday snapshot carry-over -/

/-- The stored-"yesterday" update of
`TibberDataUpdateCoordinator._async_update_data` (`coordinator.py`, lines
68-83), as a transition on the stored snapshot given the freshly fetched
`today` and `tomorrow` arrays:
* tomorrow present and nothing stored → store the (current) today array;
* tomorrow present and something stored → compare
  `data.get("today", [\x7b\x7d])[0].get("startsAt", "")` with the stored
  snapshot's first `startsAt` by Python string `>` (both must be truthy,
  i.e. non-empty) and, on a new day, store the (current) today array;
* tomorrow absent → leave the snapshot unchanged.
`headD ⟨none, ""⟩` renders the `[\x7b\x7d]` default; the source would
instead raise `IndexError` on a present-but-empty today list, a case no
claim exercises. -/
def update_yesterday_prices (stored today tomorrow : List PriceEntry) :
    List PriceEntry :=
  if tomorrow ≠ [] ∧ stored = [] then today
  else if tomorrow ≠ [] ∧ stored ≠ [] then
    if (today.headD ⟨none, ""⟩).startsAt ≠ ""
        ∧ (stored.headD ⟨none, ""⟩).startsAt ≠ ""
        ∧ (stored.headD ⟨none, ""⟩).startsAt
            < (today.headD ⟨none, ""⟩).startsAt then
      today
    else stored
  else stored

/-- C9 counterexample: a two-cycle run across a calendar-day rollover.
Cycle 1 (day 1, tomorrow present) stores day 1's today array; cycle 2
(day 2, tomorrow present) detects the rollover and stores day **2**'s today
array — the current cycle's today, not the previous cycle's today array
(day 1's) as the claim states. -/
theorem c9_counterexample :
    update_yesterday_prices []
        [⟨some 1, "2024-01-01T00:00:00+01:00"⟩]
        [⟨some 5, "2024-01-02T00:00:00+01:00"⟩]
      = [⟨some 1, "2024-01-01T00:00:00+01:00"⟩] ∧
    update_yesterday_prices [⟨some 1, "2024-01-01T00:00:00+01:00"⟩]
        [⟨some 2, "2024-01-02T00:00:00+01:00"⟩]
        [⟨some 6, "2024-01-03T00:00:00+01:00"⟩]
      = [⟨some 2, "2024-01-02T00:00:00+01:00"⟩] ∧
    ([⟨some 2, "2024-01-02T00:00:00+01:00"⟩] : List PriceEntry)
      ≠ [⟨some 1, "2024-01-01T00:00:00+01:00"⟩] := by
  refine ⟨rfl, ?_, by decide⟩
  have hlt : ("2024-01-01T00:00:00+01:00" : String)
      < "2024-01-02T00:00:00+01:00" := by
    rw [String.lt_iff_toList_lt]
    decide
  rw [update_yesterday_prices, if_neg (by decide), if_pos (by decide),
    if_pos ⟨by decide, by decide, hlt⟩]

/-- Once the snapshot has been updated for a given today array (with
tomorrow present), re-running the transition with the same today leaves it
unchanged. -/
lemma update_yesterday_prices_self (today tom' : List PriceEntry) :
    update_yesterday_prices today today tom' = today := by
  by_cases ht' : tom' = []
  · rw [update_yesterday_prices, if_neg (fun h => h.1 ht'),
      if_neg (fun h => h.1 ht')]
  · by_cases htd : today = []
    · rw [update_yesterday_prices, if_pos ⟨ht', htd⟩]
    · rw [update_yesterday_prices, if_neg (fun h => htd h.2),
        if_pos ⟨ht', htd⟩, if_neg (fun h => absurd h.2.2 (lt_irrefl _))]

/-- C9 amended: when tomorrow data is present, the stored snapshot is
replaced with the **current** cycle's today array exactly when both first
`startsAt` strings are non-empty and the stored one is strictly smaller
(string comparison detecting the rollover); and the transition is
idempotent for a fixed today array — once tomorrow data has been seen, the
snapshot is never updated again within the same day, so at most one update
happens per rollover.  (When tomorrow data never appears during a day, zero
updates happen, so "exactly once per rollover" does not hold either.) -/
theorem update_yesterday_prices_amended
    (stored today tom tom' : List PriceEntry) :
    (tom ≠ [] → stored ≠ [] →
      (today.headD ⟨none, ""⟩).startsAt ≠ "" →
      (stored.headD ⟨none, ""⟩).startsAt ≠ "" →
      (stored.headD ⟨none, ""⟩).startsAt < (today.headD ⟨none, ""⟩).startsAt →
      update_yesterday_prices stored today tom = today) ∧
    (tom ≠ [] →
      update_yesterday_prices (update_yesterday_prices stored today tom)
          today tom'
        = update_yesterday_prices stored today tom) := by
  constructor
  · intro ht hs h1 h2 h3
    rw [update_yesterday_prices, if_neg (fun h => hs h.2), if_pos ⟨ht, hs⟩,
      if_pos ⟨h1, h2, h3⟩]
  · intro ht
    by_cases hs : stored = []
    · have h1 : update_yesterday_prices stored today tom = today := by
        rw [update_yesterday_prices, if_pos ⟨ht, hs⟩]
      rw [h1, update_yesterday_prices_self]
    · have hbr : update_yesterday_prices stored today tom
          = (if (today.headD ⟨none, ""⟩).startsAt ≠ ""
              ∧ (stored.headD ⟨none, ""⟩).startsAt ≠ ""
              ∧ (stored.headD ⟨none, ""⟩).startsAt
                  < (today.headD ⟨none, ""⟩).startsAt then
              today
            else stored) := by
        rw [update_yesterday_prices, if_neg (fun h => hs h.2),
          if_pos ⟨ht, hs⟩]
      by_cases hc : (today.headD ⟨none, ""⟩).startsAt ≠ ""
          ∧ (stored.headD ⟨none, ""⟩).startsAt ≠ ""
          ∧ (stored.headD ⟨none, ""⟩).startsAt
              < (today.headD ⟨none, ""⟩).startsAt
      · rw [hbr, if_pos hc, update_yesterday_prices_self]
      · rw [hbr, if_neg hc]
        by_cases ht' : tom' = []
        · rw [update_yesterday_prices, if_neg (fun h => h.1 ht'),
            if_neg (fun h => h.1 ht')]
        · rw [update_yesterday_prices, if_neg (fun h => hs h.2),
            if_pos ⟨ht', hs⟩, if_neg hc]

/-- Witness for C9 (amended): the rollover update fires at a concrete input
and immediately re-running the transition changes nothing. -/
theorem update_yesterday_prices_amended_witness :
    update_yesterday_prices [⟨some 1, "2024-01-01T00:00:00+01:00"⟩]
        [⟨some 2, "2024-01-02T00:00:00+01:00"⟩]
        [⟨some 6, "2024-01-03T00:00:00+01:00"⟩]
      = [⟨some 2, "2024-01-02T00:00:00+01:00"⟩] ∧
    update_yesterday_prices
        (update_yesterday_prices [⟨some 1, "2024-01-01T00:00:00+01:00"⟩]
          [⟨some 2, "2024-01-02T00:00:00+01:00"⟩]
          [⟨some 6, "2024-01-03T00:00:00+01:00"⟩])
        [⟨some 2, "2024-01-02T00:00:00+01:00"⟩]
        [⟨some 7, "2024-01-03T00:00:00+01:00"⟩]
      = update_yesterday_prices [⟨some 1, "2024-01-01T00:00:00+01:00"⟩]
          [⟨some 2, "2024-01-02T00:00:00+01:00"⟩]
          [⟨some 6, "2024-01-03T00:00:00+01:00"⟩] := by
  constructor
  · exact (update_yesterday_prices_amended
      [⟨some 1, "2024-01-01T00:00:00+01:00"⟩]
      [⟨some 2, "2024-01-02T00:00:00+01:00"⟩]
      [⟨some 6, "2024-01-03T00:00:00+01:00"⟩] []).1
      (by decide) (by decide) (by decide) (by decide)
      (by rw [String.lt_iff_toList_lt]; decide)
  · exact (update_yesterday_prices_amended
      [⟨some 1, "2024-01-01T00:00:00+01:00"⟩]
      [⟨some 2, "2024-01-02T00:00:00+01:00"⟩]
      [⟨some 6, "2024-01-03T00:00:00+01:00"⟩]
      [⟨some 7, "2024-01-03T00:00:00+01:00"⟩]).2 (by decide)

end TibberInsights
